import Mathlib

/-!
Verification of the gSwap repository: the constant-product pool (`gPool.sol`),
the arbitrage route discovery and route-profit simulation resolvers
(`agent/src/graphql/mockServer.ts` and `subsquid/src/processor/server.ts`),
the opportunity calculator (`agent/src/arbitrage/calculator.ts`), the LLM
decision client (`agent/src/llm/analyzer.ts`) and the transaction executor
(`agent/src/executor/transactions.ts`).

Solidity `uint256` arithmetic is embedded as `Nat`: Solidity 0.8 checked
arithmetic reverts on overflow/underflow instead of wrapping, and a revert is
modelled as `Option.none`, so every `some` result agrees with unbounded
natural-number arithmetic.  JavaScript `bigint` arithmetic is embedded as
`Nat`/`Int` (bigint division truncates, which on non-negative operands is
`Nat` division).  JavaScript floating-point numbers in the calculator are
embedded as `ℚ`; the claims settled against that embedding concern the shape
of the formulas, which the embedding preserves exactly.
-/

namespace GSwap

/-! ## gPool.sol -/

/-- `gPool.getAmountOut` (gPool.sol lines 81-93).  `require` clauses that
revert become `none`.  `swapFee` is the pool's `swapFee` storage field; the
checked subtraction `10000 - swapFee` reverts when `swapFee > 10000`. -/
def gPool.getAmountOut (amountIn reserveIn reserveOut swapFee : ℕ) : Option ℕ :=
  if amountIn = 0 then none
  else if reserveIn = 0 ∨ reserveOut = 0 then none
  else if 10000 < swapFee then none
  else
    let amountInWithFee := amountIn * (10000 - swapFee)
    let numerator := amountInWithFee * reserveOut
    let denominator := reserveIn * 10000 + amountInWithFee
    some (numerator / denominator)

/-- Loop of `gPool._sqrt` (gPool.sol lines 214-226): `while (x < z) { z = x;
x = (y / x + x) / 2; }`, modelled with the loop state `(z, x)` passed
explicitly. -/
def gPool.sqrtLoop (y z x : ℕ) : ℕ :=
  if h : x < z then gPool.sqrtLoop y x ((y / x + x) / 2) else z
termination_by z
decreasing_by exact h

/-- `gPool._sqrt` (gPool.sol lines 214-226), Babylonian square root. -/
def gPool.sqrt (y : ℕ) : ℕ :=
  if y = 0 then 0
  else if 3 < y then gPool.sqrtLoop y y (y / 2 + 1)
  else 1

/-- The storage of a `gPool` contract that the liquidity/swap operations read
and write: `reserve0`, `reserve1`, `totalSupply` and the `balanceOf` mapping
(holders are addresses, embedded as `ℕ`). -/
structure PoolState where
  reserve0 : ℕ
  reserve1 : ℕ
  swapFee : ℕ
  totalSupply : ℕ
  balanceOf : ℕ → ℕ

/-- A freshly created pool: zero reserves, zero supply, empty balances,
with the fee set once by the factory. -/
def PoolState.fresh (fee : ℕ) : PoolState := ⟨0, 0, fee, 0, fun _ => 0⟩

/-- The LP token count `gPool.addLiquidity` computes (gPool.sol lines 104-112):
geometric mean on an empty pool, otherwise the smaller proportional share. -/
def gPool.mintedShares (s : PoolState) (amount0 amount1 : ℕ) : ℕ :=
  if s.totalSupply = 0 then gPool.sqrt (amount0 * amount1)
  else min (amount0 * s.totalSupply / s.reserve0) (amount1 * s.totalSupply / s.reserve1)

/-- `gPool.addLiquidity` (gPool.sol lines 96-124), called by `sender`.
Returns the new storage and the minted LP token count; `none` on revert
(zero amount, zero shares; a zero reserve with nonzero supply reverts on
division by zero in Solidity, and in the `Nat` embedding the quotient is `0`
so the same call fails on the `lpTokens > 0` require). -/
def gPool.addLiquidity (s : PoolState) (sender : ℕ) (amount0 amount1 : ℕ) :
    Option (PoolState × ℕ) :=
  if amount0 = 0 ∨ amount1 = 0 then none
  else if gPool.mintedShares s amount0 amount1 = 0 then none
  else some
    ({ s with
       reserve0 := s.reserve0 + amount0
       reserve1 := s.reserve1 + amount1
       totalSupply := s.totalSupply + gPool.mintedShares s amount0 amount1
       balanceOf := fun a =>
         if a = sender then s.balanceOf a + gPool.mintedShares s amount0 amount1
         else s.balanceOf a },
     gPool.mintedShares s amount0 amount1)

/-- The amount of `reserve0` a burn of `lpTokens` pays out
(gPool.sol line 132). -/
def gPool.payout0 (s : PoolState) (lpTokens : ℕ) : ℕ :=
  lpTokens * s.reserve0 / s.totalSupply

/-- The amount of `reserve1` a burn of `lpTokens` pays out
(gPool.sol line 133). -/
def gPool.payout1 (s : PoolState) (lpTokens : ℕ) : ℕ :=
  lpTokens * s.reserve1 / s.totalSupply

/-- `gPool.removeLiquidity` (gPool.sol lines 127-149), called by `sender`.
Returns the new storage and the pair of returned amounts; `none` on revert. -/
def gPool.removeLiquidity (s : PoolState) (sender : ℕ) (lpTokens : ℕ) :
    Option (PoolState × (ℕ × ℕ)) :=
  if lpTokens = 0 then none
  else if s.balanceOf sender < lpTokens then none
  else if gPool.payout0 s lpTokens = 0 ∨ gPool.payout1 s lpTokens = 0 then none
  else some
    ({ s with
       reserve0 := s.reserve0 - gPool.payout0 s lpTokens
       reserve1 := s.reserve1 - gPool.payout1 s lpTokens
       totalSupply := s.totalSupply - lpTokens
       balanceOf := fun a => if a = sender then s.balanceOf a - lpTokens else s.balanceOf a },
     (gPool.payout0 s lpTokens, gPool.payout1 s lpTokens))

/-- `gPool.swap` (gPool.sol lines 152-187).  `zeroForOne = true` means
`tokenIn == token0`.  The deadline/timestamp comparison is a pure check on the
two numbers.  Returns the new storage and `amountOut`; `none` on revert. -/
def gPool.swap (s : PoolState) (zeroForOne : Bool) (amountIn minAmountOut : ℕ)
    (deadline blockTimestamp : ℕ) : Option (PoolState × ℕ) :=
  if deadline < blockTimestamp then none
  else if amountIn = 0 then none
  else
    let reserveIn := if zeroForOne then s.reserve0 else s.reserve1
    let reserveOut := if zeroForOne then s.reserve1 else s.reserve0
    if reserveIn = 0 ∨ reserveOut = 0 then none
    else
      (gPool.getAmountOut amountIn reserveIn reserveOut s.swapFee).bind fun amountOut =>
        if amountOut < minAmountOut then none
        else some
          (if zeroForOne then
            { s with reserve0 := s.reserve0 + amountIn, reserve1 := s.reserve1 - amountOut }
          else
            { s with reserve1 := s.reserve1 + amountIn, reserve0 := s.reserve0 - amountOut },
          amountOut)

/-- The states a `gPool` can actually be in: a fresh pool (any factory-chosen
fee), plus everything reachable through the three mutating operations, which
are the only code that writes the reserves or the share ledger. -/
inductive PoolState.Reachable : PoolState → Prop
  | fresh (fee : ℕ) : PoolState.Reachable (PoolState.fresh fee)
  | add {s sender amount0 amount1 s' lp} :
      PoolState.Reachable s → gPool.addLiquidity s sender amount0 amount1 = some (s', lp) →
      PoolState.Reachable s'
  | remove {s sender lpTokens s' out} :
      PoolState.Reachable s → gPool.removeLiquidity s sender lpTokens = some (s', out) →
      PoolState.Reachable s'
  | swapStep {s zeroForOne amountIn minAmountOut deadline ts s' out} :
      PoolState.Reachable s →
      gPool.swap s zeroForOne amountIn minAmountOut deadline ts = some (s', out) →
      PoolState.Reachable s'

/-! ## Indexer / agent data model

Both GraphQL servers (`agent/src/graphql/mockServer.ts` and
`subsquid/src/processor/server.ts`) work on a list of pool records with two
token addresses, reserves and a fee.  Addresses are embedded as `ℕ` (the
sources lower-case address strings before comparing; the embedding compares
identities directly). -/

structure IndexPool where
  address : ℕ
  token0 : ℕ
  token1 : ℕ
  reserve0 : ℕ
  reserve1 : ℕ
  swapFee : ℕ
deriving DecidableEq

/-- Pool lookup used by both `calculateRouteProfit` resolvers: the first pool
connecting the unordered pair `(a, b)`. -/
def findPool (pools : List IndexPool) (a b : ℕ) : Option IndexPool :=
  pools.find? fun p =>
    (p.token0 == a && p.token1 == b) || (p.token1 == a && p.token0 == b)

/-- `getAmountOut` of the mock GraphQL server (mockServer.ts lines 107-119):
returns `0` (instead of reverting) on zero input or zero reserves, otherwise
the constant-product output with the pool's own fee.  JavaScript computes
`BigInt(10000 - swapFee)`; for `swapFee ≤ 10000` (the only case the claims
quantify over) this agrees with the `Nat` subtraction used here. -/
def mockGetAmountOut (amountIn reserveIn reserveOut swapFee : ℕ) : ℕ :=
  if amountIn = 0 ∨ reserveIn = 0 ∨ reserveOut = 0 then 0
  else
    let amountInWithFee := amountIn * (10000 - swapFee)
    amountInWithFee * reserveOut / (reserveIn * 10000 + amountInWithFee)

/-- The per-hop output of the subsquid server's `calculateRouteProfit`
(server.ts lines 297-301): the fee is hard-coded as `997/1000` regardless of
the pool's `swapFee` field. -/
def squidGetAmountOut (amountIn reserveIn reserveOut : ℕ) : ℕ :=
  amountIn * 997 * reserveOut / (reserveIn * 1000 + amountIn * 997)

/-- Result record of both `calculateRouteProfit` resolvers (fields the claims
are about).  The mock server's `profit` is clamped at `0`; the subsquid
server's is a signed bigint, so the record keeps `profit : ℤ`. -/
structure RouteProfitOutcome where
  amountOut : ℕ
  profit : ℤ
  viable : Bool
deriving DecidableEq

/-- Hop loop of the mock server's `calculateRouteProfit` (mockServer.ts lines
265-298): follow the remaining route, returning `none` on a missing pool and
otherwise the final accumulated amount. -/
def mockRouteLoop (pools : List IndexPool) (current amount : ℕ) :
    List ℕ → Option ℕ
  | [] => some amount
  | next :: rest =>
    match findPool pools current next with
    | none => none
    | some p =>
      let reserveIn := if p.token0 = current then p.reserve0 else p.reserve1
      let reserveOut := if p.token0 = current then p.reserve1 else p.reserve0
      mockRouteLoop pools next (mockGetAmountOut amount reserveIn reserveOut p.swapFee) rest

/-- `calculateRouteProfit` of the mock GraphQL server (mockServer.ts lines
258-319). -/
def mockCalculateRouteProfit (pools : List IndexPool) (route : List ℕ)
    (amountIn : ℕ) : RouteProfitOutcome :=
  match route with
  | [] => { amountOut := amountIn, profit := 0, viable := false }
  | start :: rest =>
    match mockRouteLoop pools start amountIn rest with
    | none => { amountOut := 0, profit := 0, viable := false }
    | some amountOut =>
      { amountOut := amountOut
        profit := if amountIn < amountOut then (amountOut : ℤ) - amountIn else 0
        viable := decide (amountIn < amountOut) }

/-- Hop loop of the subsquid server's `calculateRouteProfit` (server.ts lines
255-302): a missing pool or a zero reserve aborts with `none`; otherwise the
hard-coded 0.3% formula is applied. -/
def squidRouteLoop (pools : List IndexPool) (current amount : ℕ) :
    List ℕ → Option ℕ
  | [] => some amount
  | next :: rest =>
    match findPool pools current next with
    | none => none
    | some p =>
      let reserveIn := if p.token0 = current then p.reserve0 else p.reserve1
      let reserveOut := if p.token0 = current then p.reserve1 else p.reserve0
      if reserveIn = 0 ∨ reserveOut = 0 then none
      else squidRouteLoop pools next (squidGetAmountOut amount reserveIn reserveOut) rest

/-- `calculateRouteProfit` of the subsquid server (server.ts lines 250-332). -/
def squidCalculateRouteProfit (pools : List IndexPool) (route : List ℕ)
    (amountIn : ℕ) : RouteProfitOutcome :=
  match route with
  | [] => { amountOut := amountIn, profit := 0, viable := false }
  | start :: rest =>
    match squidRouteLoop pools start amountIn rest with
    | none => { amountOut := 0, profit := 0, viable := false }
    | some amountOut =>
      { amountOut := amountOut
        profit := (amountOut : ℤ) - amountIn
        viable := decide ((0 : ℤ) < (amountOut : ℤ) - amountIn) }

/-! ## Route discovery (`arbitrageRoutes`) -/

/-- Adjacency list both servers build from the pool list (mockServer.ts lines
215-225, server.ts lines 207-218): scanning the pools in order, each pool
appends `token1` to `token0`'s neighbours and vice versa. -/
def adjOf (pools : List IndexPool) (t : ℕ) : List ℕ :=
  pools.flatMap fun p =>
    (if p.token0 = t then [p.token1] else []) ++ (if p.token1 = t then [p.token0] else [])

/-- DFS of the mock server's `arbitrageRoutes` (mockServer.ts lines 227-253).
`visited` is passed persistently, which matches the source's add/delete
bracketing.  The `fuel` argument only reifies termination: every call site
passes `maxHops + 2 - depth`, and when fuel reaches `0` the depth guard would
return `[]` anyway. -/
def mockDfs (adj : ℕ → List ℕ) (maxHops start : ℕ) :
    ℕ → ℕ → List ℕ → List ℕ → ℕ → List (List ℕ)
  | 0, _, _, _, _ => []
  | fuel + 1, current, path, visited, depth =>
    if maxHops < depth then []
    else if 2 < depth ∧ current = start then [path]
    else
      (adj current).flatMap fun next =>
        if next ≠ start ∧ next ∈ visited then []
        else mockDfs adj maxHops start fuel next (path ++ [next]) (next :: visited) (depth + 1)

/-- `arbitrageRoutes` of the mock GraphQL server (mockServer.ts lines
211-255): DFS from `start` with an initially empty visited set. -/
def mockArbitrageRoutes (pools : List IndexPool) (start maxHops : ℕ) :
    List (List ℕ) :=
  mockDfs (adjOf pools) maxHops start (maxHops + 1) start [start] [] 1

/-- DFS of the subsquid server's `arbitrageRoutes` (server.ts lines 220-245):
identical except that the skip test is `visited.has(next)` with no exception
for the start token. -/
def squidDfs (adj : ℕ → List ℕ) (maxHops start : ℕ) :
    ℕ → ℕ → List ℕ → List ℕ → ℕ → List (List ℕ)
  | 0, _, _, _, _ => []
  | fuel + 1, current, path, visited, depth =>
    if maxHops < depth then []
    else if 2 < depth ∧ current = start then [path]
    else
      (adj current).flatMap fun next =>
        if next ∈ visited then []
        else squidDfs adj maxHops start fuel next (path ++ [next]) (next :: visited) (depth + 1)

/-- `arbitrageRoutes` of the subsquid server (server.ts lines 204-247): the
start token is inserted into `visited` before the search begins. -/
def squidArbitrageRoutes (pools : List IndexPool) (start maxHops : ℕ) :
    List (List ℕ) :=
  squidDfs (adjOf pools) maxHops start (maxHops + 1) start [start] [start] 1

/-! ## Transaction executor (`agent/src/executor/transactions.ts`) -/

/-- The fields of `ExecutionDecision` (analyzer.ts lines 17-26) the executor
reads.  `confidence` is a JavaScript number, embedded as `ℚ` (the threshold
comparisons the claims are about have the same truth value over `ℚ` and over
binary64). -/
structure ExecutionDecision where
  shouldExecute : Bool
  confidence : ℚ
  reasoning : String
deriving DecidableEq

/-- `TransactionResult` (transactions.ts lines 19-27), restricted to the
fields the gating logic writes. -/
structure TransactionResult where
  success : Bool
  error : Option String
deriving DecidableEq

/-- `TransactionExecutor.executeArbitrage` (transactions.ts lines 60-101).
Everything after the two decision gates (preparing swap steps and the mock
settlement simulation, which draws randomness) is abstracted as the `proceed`
argument; the gates return before any of it runs. -/
def executeArbitrage (decision : ExecutionDecision)
    (proceed : TransactionResult) : TransactionResult :=
  if !decision.shouldExecute then
    { success := false, error := some "LLM decision: do not execute" }
  else if decision.confidence < 6 / 10 then
    { success := false, error := some "Confidence too low" }
  else proceed

/-! ## LLM analyzer (`agent/src/llm/analyzer.ts`) -/

/-- What one `callLLM` attempt can observe (analyzer.ts lines 161-212): a
successful parse with body `s`, a rate-limited API error (429), or any other
failure (timeout, non-JSON body, other API error). -/
inductive AttemptOutcome
  | success (s : String)
  | rateLimited
  | failure
deriving DecidableEq

/-- The retry loop of `LLMAnalyzer.callLLM` (analyzer.ts lines 161-214),
driven by an oracle giving the outcome of each attempt (attempts are numbered
from 1).  Returns the result together with the number of requests actually
issued.  A rate-limited attempt sleeps and retries; any other failure
re-throws on the last attempt and otherwise retries; falling out of the loop
throws `Max retries exceeded`. -/
def callLLMGo (oracle : ℕ → AttemptOutcome) (retries attempt : ℕ) :
    Except String String × ℕ :=
  if retries < attempt then (.error "Max retries exceeded", 0)
  else
    match oracle attempt with
    | .success s => (.ok s, 1)
    | .rateLimited =>
      let r := callLLMGo oracle retries (attempt + 1)
      (r.1, r.2 + 1)
    | .failure =>
      if attempt = retries then (.error "request failed", 1)
      else
        let r := callLLMGo oracle retries (attempt + 1)
        (r.1, r.2 + 1)
termination_by retries + 1 - attempt
decreasing_by all_goals omega

/-- `LLMAnalyzer.callLLM` (analyzer.ts line 136): `retries` defaults to 3 and
the loop starts at attempt 1.  An unconfigured API key throws before any
request is made. -/
def callLLM (hasApiKey : Bool) (oracle : ℕ → AttemptOutcome) (retries : ℕ := 3) :
    Except String String × ℕ :=
  if !hasApiKey then (.error "OPENROUTER_API_KEY not configured", 0)
  else callLLMGo oracle retries 1

/-- The conservative fallback decision of `LLMAnalyzer.analyzeOpportunity`
(analyzer.ts lines 65-73). -/
def defaultDecision : ExecutionDecision :=
  { shouldExecute := false
    confidence := 0
    reasoning := "LLM analysis failed, defaulting to conservative (no execution)" }

/-- `LLMAnalyzer.analyzeOpportunity` (analyzer.ts lines 53-75): call the LLM,
parse on success, and resolve every thrown error to `defaultDecision`.
The response parser is abstracted as `parse`; the decision returned on a
successful response is `parse body`.  The second component counts the
requests issued. -/
def analyzeOpportunity (hasApiKey : Bool) (oracle : ℕ → AttemptOutcome)
    (parse : String → ExecutionDecision) : ExecutionDecision × ℕ :=
  match callLLM hasApiKey oracle with
  | (.ok body, n) => (parse body, n)
  | (.error _, n) => (defaultDecision, n)

/-! ## Arbitrage calculator (`agent/src/arbitrage/calculator.ts`)

JavaScript numbers are embedded as `ℚ`. -/

/-- A token record from the mock data set (address, symbol, decimals). -/
structure AgentToken where
  address : ℕ
  symbol : String
  decimals : ℕ

/-- `getTokenByAddress` over the token list the calculator consults. -/
def getTokenByAddress (tokens : List AgentToken) (addr : ℕ) : Option AgentToken :=
  tokens.find? fun t => t.address == addr

/-- `ArbitrageCalculator.estimateTokenPriceUSD` (calculator.ts lines
196-207). -/
def estimateTokenPriceUSD (symbol : String) : ℚ :=
  if symbol = "WETH" then 2000
  else if symbol = "ETH" then 2000
  else if symbol = "USDC" then 1
  else if symbol = "DAI" then 1
  else if symbol = "USDT" then 1
  else if symbol = "WBTC" then 40000
  else if symbol = "BTC" then 40000
  else 0

/-- Calculator configuration fields used by `evaluateRoute` (calculator.ts
lines 26-46). -/
structure CalculatorConfig where
  minProfitPercent : ℚ
  gasPriceGwei : ℚ
  ethPriceUSD : ℚ

/-- The default calculator configuration (calculator.ts lines 34-46). -/
def defaultCalculatorConfig : CalculatorConfig :=
  { minProfitPercent := 1 / 10, gasPriceGwei := 20, ethPriceUSD := 2000 }

/-- The route-profit answer `evaluateRoute` receives from the GraphQL client
(the fields it actually computes with), string fields already read back as
numbers. -/
structure ClientRouteResult where
  viable : Bool
  profit : ℚ
  gasEstimate : ℚ

/-- The fields of `ArbitrageOpportunity` (calculator.ts lines 9-24) that the
claims are about. -/
structure Opportunity where
  profitPercent : ℚ
  profitUSD : ℚ
  gasCostUSD : ℚ
  netProfitUSD : ℚ
  viable : Bool
  score : ℚ

/-- `ArbitrageCalculator.calculateScore` (calculator.ts lines 172-191). -/
def calculateScore (netProfitUSD profitPercent : ℚ) (hopCount : ℕ) : ℚ :=
  let profitWeight : ℚ := 5 / 10
  let percentWeight : ℚ := 3 / 10
  let hopWeight : ℚ := 2 / 10
  let normalizedProfit := min (netProfitUSD / 100) 1
  let normalizedPercent := min (profitPercent / 10) 1
  let normalizedHops := 1 / (hopCount : ℚ)
  normalizedProfit * profitWeight + normalizedPercent * percentWeight +
    normalizedHops * hopWeight

/-- `ArbitrageCalculator.evaluateRoute` (calculator.ts lines 97-154): derive
the USD figures from the client's route-profit result, drop the route when it
is not viable or below the minimum profit percentage, and score it.  Note the
score call passes `route.length` — the token count of the route — as the
`hopCount` argument. -/
def evaluateRoute (cfg : CalculatorConfig) (tokens : List AgentToken)
    (route : List ℕ) (amountIn : ℚ) (result : ClientRouteResult) :
    Option Opportunity :=
  if !result.viable then none
  else
    let startToken := route.head?.bind (getTokenByAddress tokens)
    -- `startToken?.decimals || 18`: a missing token or a zero `decimals`
    -- field both fall back to 18
    let startDecimals : ℕ :=
      match startToken with
      | none => 18
      | some t => if t.decimals = 0 then 18 else t.decimals
    let amountInNum := amountIn / (10 : ℚ) ^ startDecimals
    let profitNum := result.profit / (10 : ℚ) ^ startDecimals
    let tokenPriceUSD := estimateTokenPriceUSD ((startToken.map (·.symbol)).getD "")
    let profitUSD := profitNum * tokenPriceUSD
    let amountInUSD := amountInNum * tokenPriceUSD
    let gasCostETH := result.gasEstimate * cfg.gasPriceGwei * (1 / 1000000000)
    let gasCostUSD := gasCostETH * cfg.ethPriceUSD
    let netProfitUSD := profitUSD - gasCostUSD
    let profitPercent := if 0 < amountInUSD then profitUSD / amountInUSD * 100 else 0
    if profitPercent < cfg.minProfitPercent then none
    else some
      { profitPercent := profitPercent
        profitUSD := profitUSD
        gasCostUSD := gasCostUSD
        netProfitUSD := netProfitUSD
        viable := decide (0 < netProfitUSD)
        score := calculateScore netProfitUSD profitPercent route.length }

/-! ## Concrete instances and shared predicates used by the claims -/

/-- A hop of a route is broken when its connecting pool is missing from the
pool list, or that pool has a zero reserve on either side. -/
def hopBad (pools : List IndexPool) (a b : ℕ) : Prop :=
  match findPool pools a b with
  | none => True
  | some p => p.reserve0 = 0 ∨ p.reserve1 = 0

/-- A 3-node fully connected token graph: one pool per unordered pair of the
tokens `0`, `1`, `2`, all funded 1000/1000 at a 30 bps fee. -/
def k3Pools : List IndexPool :=
  [⟨100, 0, 1, 1000, 1000, 30⟩, ⟨101, 0, 2, 1000, 1000, 30⟩,
   ⟨102, 1, 2, 1000, 1000, 30⟩]

/-- The pool state after the first deposit of `(4, 9)` by holder `7` into a
fresh 30 bps pool (used to instantiate the round-trip theorem). -/
def poolAfterFirstDeposit : PoolState :=
  { reserve0 := 4, reserve1 := 9, swapFee := 30, totalSupply := 6,
    balanceOf := fun a => if a = 7 then 6 else 0 }

end GSwap

/-! Helper lemmas about division, used by several developments below. -/

/-- Cross-multiplication criterion for `Nat` division: if `n1 * d2 ≤ n2 * d1`
then `n1 / d1 ≤ n2 / d2`. -/
theorem nat_div_le_div_cross {n1 d1 n2 d2 : ℕ} (hd1 : 0 < d1) (hd2 : 0 < d2)
    (h : n1 * d2 ≤ n2 * d1) : n1 / d1 ≤ n2 / d2 := by
  rw [Nat.le_div_iff_mul_le hd2]
  have h1 : n1 / d1 * d2 * d1 ≤ n2 * d1 := by
    calc n1 / d1 * d2 * d1 = n1 / d1 * d1 * d2 := by ring
    _ ≤ n1 * d2 := Nat.mul_le_mul_right d2 (Nat.div_mul_le_self n1 d1)
    _ ≤ n2 * d1 := h
  exact Nat.le_of_mul_le_mul_right h1 hd1

/-- Strict version of the cross-multiplication criterion:
`n1 * d2 < n2 * d1` is not needed, `n / d < m` follows from `n < m * d`. -/
theorem nat_div_lt_of_lt_mul {n d m : ℕ} (hd : 0 < d) (h : n < m * d) : n / d < m :=
  (Nat.div_lt_iff_lt_mul hd).mpr h

namespace GSwap

/-- Unfolding a successful `gPool.getAmountOut`: under the three `require`s
and a representable fee, the result is exactly the truncated constant-product
formula. -/
theorem getAmountOut_formula (amountIn reserveIn reserveOut feeBps : ℕ)
    (h1 : 0 < amountIn) (h2 : 0 < reserveIn) (h3 : 0 < reserveOut)
    (h4 : feeBps ≤ 10000) :
    gPool.getAmountOut amountIn reserveIn reserveOut feeBps =
      some (amountIn * (10000 - feeBps) * reserveOut /
        (reserveIn * 10000 + amountIn * (10000 - feeBps))) := by
  unfold gPool.getAmountOut
  rw [if_neg (by omega), if_neg (by omega), if_neg (by omega)]

/-- Inversion for a successful `addLiquidity`: the requires hold and the new
storage is the updated record. -/
theorem gPool.addLiquidity_eq_some {s : PoolState} {sender amount0 amount1 : ℕ}
    {s' : PoolState} {lp : ℕ}
    (h : gPool.addLiquidity s sender amount0 amount1 = some (s', lp)) :
    amount0 ≠ 0 ∧ amount1 ≠ 0 ∧ lp = gPool.mintedShares s amount0 amount1 ∧ lp ≠ 0 ∧
    s' = { s with
           reserve0 := s.reserve0 + amount0
           reserve1 := s.reserve1 + amount1
           totalSupply := s.totalSupply + lp
           balanceOf := fun a =>
             if a = sender then s.balanceOf a + lp else s.balanceOf a } := by
  unfold gPool.addLiquidity at h
  split_ifs at h with h1 h2
  simp only [Option.some.injEq, Prod.mk.injEq] at h
  obtain ⟨hs', hlp⟩ := h
  subst hlp
  push_neg at h1
  exact ⟨h1.1, h1.2, rfl, h2, hs'.symm⟩

/-- Inversion for a successful `removeLiquidity`. -/
theorem gPool.removeLiquidity_eq_some {s : PoolState} {sender lpTokens : ℕ}
    {s' : PoolState} {out : ℕ × ℕ}
    (h : gPool.removeLiquidity s sender lpTokens = some (s', out)) :
    lpTokens ≠ 0 ∧ lpTokens ≤ s.balanceOf sender ∧
    gPool.payout0 s lpTokens ≠ 0 ∧ gPool.payout1 s lpTokens ≠ 0 ∧
    out = (gPool.payout0 s lpTokens, gPool.payout1 s lpTokens) ∧
    s' = { s with
           reserve0 := s.reserve0 - gPool.payout0 s lpTokens
           reserve1 := s.reserve1 - gPool.payout1 s lpTokens
           totalSupply := s.totalSupply - lpTokens
           balanceOf := fun a =>
             if a = sender then s.balanceOf a - lpTokens else s.balanceOf a } := by
  unfold gPool.removeLiquidity at h
  split_ifs at h with h1 h2 h3
  simp only [Option.some.injEq, Prod.mk.injEq] at h
  push_neg at h2 h3
  exact ⟨h1, h2, h3.1, h3.2, h.2.symm, h.1.symm⟩

/-- Inversion for a successful `swap`: the LP supply is untouched and both
pre-state reserves were nonzero. -/
theorem gPool.swap_eq_some {s : PoolState} {zeroForOne : Bool}
    {amountIn minAmountOut deadline ts : ℕ} {s' : PoolState} {out : ℕ}
    (h : gPool.swap s zeroForOne amountIn minAmountOut deadline ts = some (s', out)) :
    s'.totalSupply = s.totalSupply ∧ s.reserve0 ≠ 0 ∧ s.reserve1 ≠ 0 := by
  cases zeroForOne
  · simp only [gPool.swap, Bool.false_eq_true, if_false, ite_false] at h
    split_ifs at h with h1 h2 h3
    rw [Option.bind_eq_some] at h
    obtain ⟨amountOut, _, h⟩ := h
    split_ifs at h with h4
    simp only [Option.some.injEq, Prod.mk.injEq] at h
    obtain ⟨hs', _⟩ := h
    subst hs'
    push_neg at h3
    exact ⟨rfl, h3.2, h3.1⟩
  · simp only [gPool.swap, if_true, ite_true] at h
    split_ifs at h with h1 h2 h3
    rw [Option.bind_eq_some] at h
    obtain ⟨amountOut, _, h⟩ := h
    split_ifs at h with h4
    simp only [Option.some.injEq, Prod.mk.injEq] at h
    obtain ⟨hs', _⟩ := h
    subst hs'
    push_neg at h3
    exact ⟨rfl, h3.1, h3.2⟩

/-- Ledger invariant of a live pool: the only way the LP supply can be zero is
with both reserves empty (a full withdrawal pays out the entire reserves). -/
theorem PoolState.reachable_zero_supply {s : PoolState} (h : PoolState.Reachable s) :
    s.totalSupply = 0 → s.reserve0 = 0 ∧ s.reserve1 = 0 := by
  induction h with
  | fresh fee => intro _; exact ⟨rfl, rfl⟩
  | add hr hop ih =>
    obtain ⟨_, _, _, hlp, hs'⟩ := gPool.addLiquidity_eq_some hop
    subst hs'
    intro h0
    simp only at h0
    omega
  | remove hr hop ih =>
    rename_i s sender lpTokens s' out
    obtain ⟨hlp, hbal, hp0, hp1, _, hs'⟩ := gPool.removeLiquidity_eq_some hop
    subst hs'
    intro h0
    simp only at h0 ⊢
    -- the dust checks force `totalSupply > 0`
    have hT : 0 < s.totalSupply := by
      rcases Nat.eq_zero_or_pos s.totalSupply with hz | hp
      · exact absurd (by simp [gPool.payout0, hz]) hp0
      · exact hp
    -- new supply `T - lp = 0` forces `lp ≥ T`, so each payout reaches the
    -- full reserve
    have hlpT : s.totalSupply ≤ lpTokens := by omega
    have h0' : s.reserve0 ≤ gPool.payout0 s lpTokens := by
      unfold gPool.payout0
      calc s.reserve0 = s.totalSupply * s.reserve0 / s.totalSupply :=
        (Nat.mul_div_cancel_left _ hT).symm
      _ ≤ lpTokens * s.reserve0 / s.totalSupply :=
        Nat.div_le_div_right (Nat.mul_le_mul_right _ hlpT)
    have h1' : s.reserve1 ≤ gPool.payout1 s lpTokens := by
      unfold gPool.payout1
      calc s.reserve1 = s.totalSupply * s.reserve1 / s.totalSupply :=
        (Nat.mul_div_cancel_left _ hT).symm
      _ ≤ lpTokens * s.reserve1 / s.totalSupply :=
        Nat.div_le_div_right (Nat.mul_le_mul_right _ hlpT)
    omega
  | swapStep hr hop ih =>
    obtain ⟨hsup, h0, h1⟩ := gPool.swap_eq_some hop
    intro hz
    rw [hsup] at hz
    exact absurd (ih hz).1 h0

/-! Correctness of the Babylonian square root: `gPool.sqrt = Nat.sqrt`. -/

/-- Integer AM-GM step: one Babylonian iterate never drops below `Nat.sqrt y`. -/
theorem sqrt_le_iterate (y x : ℕ) (hx : 0 < x) :
    Nat.sqrt y ≤ (y / x + x) / 2 := by
  set s := Nat.sqrt y with hs
  have hsq : s * s ≤ y := Nat.sqrt_le y
  rw [Nat.le_div_iff_mul_le (by norm_num : (0:ℕ) < 2)]
  rcases le_or_lt (2 * s) x with hle | hlt
  · exact le_trans (by omega) (Nat.le_add_left x (y / x))
  · have hdiv : 2 * s - x ≤ y / x := by
      rw [Nat.le_div_iff_mul_le hx]
      have : (2 * s - x) * x ≤ s * s := by
        zify [le_of_lt hlt]
        nlinarith [sq_nonneg ((s : ℤ) - x)]
      omega
    omega

/-- The loop of `_sqrt`, entered at state `(z, (y / z + z) / 2)` with
`Nat.sqrt y ≤ z`, returns exactly `Nat.sqrt y`. -/
theorem sqrtLoop_eq (y : ℕ) (hy : 0 < y) :
    ∀ z, 0 < z → Nat.sqrt y ≤ z → gPool.sqrtLoop y z ((y / z + z) / 2) = Nat.sqrt y := by
  intro z
  induction z using Nat.strong_induction_on with
  | _ z ih =>
    intro hz hsz
    set x := (y / z + z) / 2 with hxdef
    have hsx : Nat.sqrt y ≤ x := sqrt_le_iterate y z hz
    rw [gPool.sqrtLoop]
    by_cases hlt : x < z
    · simp only [hlt, dif_pos]
      have hx0 : 0 < x := lt_of_lt_of_le (Nat.sqrt_pos.mpr hy) hsx
      exact ih x hlt hx0 hsx
    · simp only [hlt, dif_neg, not_false_iff]
      -- exit: `(y / z + z) / 2 ≥ z` forces `z * z ≤ y`, hence `z ≤ Nat.sqrt y`
      have hge : z ≤ x := le_of_not_lt hlt
      have h2z : 2 * z ≤ y / z + z := by
        have := (Nat.le_div_iff_mul_le (by norm_num : (0:ℕ) < 2)).mp hge
        omega
      have hzz : z * z ≤ y := by
        have hz2 : z ≤ y / z := by omega
        calc z * z ≤ y / z * z := Nat.mul_le_mul_right z hz2
        _ ≤ y := Nat.div_mul_le_self y z
      exact le_antisymm (Nat.le_sqrt.mpr hzz) hsz

/-- `gPool._sqrt` computes the integer square root, i.e. the floor of the real
square root: the Babylonian loop refines `Nat.sqrt`. -/
theorem gPool_sqrt_eq (y : ℕ) : gPool.sqrt y = Nat.sqrt y := by
  unfold gPool.sqrt
  by_cases h0 : y = 0
  · simp [h0]
  · simp only [h0, if_false]
    by_cases h3 : 3 < y
    · simp only [h3, if_true]
      -- first loop test: `y / 2 + 1 < y` holds for `y ≥ 4`
      have henter : y / 2 + 1 < y := by omega
      rw [gPool.sqrtLoop]
      simp only [henter, dif_pos]
      -- the state now matches `sqrtLoop_eq` at `z = y / 2 + 1`
      have hz0 : 0 < y / 2 + 1 := by omega
      have hsz : Nat.sqrt y ≤ y / 2 + 1 := by
        have hsq : Nat.sqrt y * Nat.sqrt y ≤ y := Nat.sqrt_le y
        set s := Nat.sqrt y
        have : 2 * s ≤ s * s + 2 := by nlinarith [Nat.le_of_lt_succ (Nat.lt_succ_self s)]
        omega
      exact sqrtLoop_eq y (by omega) (y / 2 + 1) hz0 hsz
    · simp only [h3, if_false]
      have hy : y = 1 ∨ y = 2 ∨ y = 3 := by omega
      rcases hy with h | h | h <;> subst h <;>
        exact (Nat.eq_sqrt.mpr ⟨by norm_num, by norm_num⟩)

end GSwap

namespace GSwap

/-! ## Claims -/

/-- Claim C2: for every `amountIn > 0` and reserves `reserveIn > 0`,
`reserveOut > 0`, the pool's `getAmountOut` returns exactly
`floor(amountIn * (10000 - feeBps) * reserveOut /
(reserveIn * 10000 + amountIn * (10000 - feeBps)))` in exact integer
arithmetic with truncating division.  (The `feeBps ≤ 10000` hypothesis is the
representability of the fee: beyond it the checked subtraction
`10000 - swapFee` reverts and nothing is returned.)  The witness instantiates
the spec example `reserveIn = reserveOut = 1000`, `feeBps = 30`,
`amountIn = 100 ↦ 90`. -/
theorem claim_C2_quoteOutput_formula (amountIn reserveIn reserveOut feeBps : ℕ)
    (h1 : 0 < amountIn) (h2 : 0 < reserveIn) (h3 : 0 < reserveOut)
    (h4 : feeBps ≤ 10000) :
    gPool.getAmountOut amountIn reserveIn reserveOut feeBps =
      some (amountIn * (10000 - feeBps) * reserveOut /
        (reserveIn * 10000 + amountIn * (10000 - feeBps))) :=
  getAmountOut_formula amountIn reserveIn reserveOut feeBps h1 h2 h3 h4

/-- Claim C2, witness: the spec's swap example, `getAmountOut 100 1000 1000`
with a 30 bps fee returns exactly 90 (`floor of 90.66…`). -/
theorem claim_C2_witness : gPool.getAmountOut 100 1000 1000 30 = some 90 := by
  have h := claim_C2_quoteOutput_formula 100 1000 1000 30
    (by norm_num) (by norm_num) (by norm_num) (by norm_num)
  rw [h]

/-- Claim C3: with both reserves positive and a representable fee,
`getAmountOut` is monotonically increasing in `amountIn` and its result is
strictly less than `reserveOut`. -/
theorem claim_C3_monotone_bounded (reserveIn reserveOut feeBps a a' : ℕ)
    (hri : 0 < reserveIn) (hro : 0 < reserveOut) (ha : 0 < a) (haa : a ≤ a')
    (hfee : feeBps ≤ 10000) :
    ∀ out out', gPool.getAmountOut a reserveIn reserveOut feeBps = some out →
      gPool.getAmountOut a' reserveIn reserveOut feeBps = some out' →
      out ≤ out' ∧ out < reserveOut := by
  intro out out' hout hout'
  have ha' : 0 < a' := lt_of_lt_of_le ha haa
  rw [getAmountOut_formula a reserveIn reserveOut feeBps ha hri hro hfee,
    Option.some.injEq] at hout
  rw [getAmountOut_formula a' reserveIn reserveOut feeBps ha' hri hro hfee,
    Option.some.injEq] at hout'
  subst hout hout'
  set f := 10000 - feeBps with hf
  constructor
  · apply nat_div_le_div_cross
    · positivity
    · positivity
    · -- cross-multiplied, the two sides differ only in `a * c ≤ a' * c`
      -- for `c = reserveIn * 10000 * f * reserveOut`
      nlinarith [Nat.mul_le_mul_right (f * reserveOut * reserveIn * 10000) haa]
  · apply nat_div_lt_of_lt_mul
    · positivity
    · nlinarith [Nat.mul_pos (Nat.mul_pos hri hro) (show 0 < 10000 by norm_num)]

/-- Claim C3, witness: at reserves 1000/1000 with a 30 bps fee, inputs
100 ≤ 200 give outputs 90 ≤ 166, and 90 < 1000. -/
theorem claim_C3_witness : 90 ≤ 166 ∧ 90 < 1000 :=
  claim_C3_monotone_bounded 1000 1000 30 100 200
    (by norm_num) (by norm_num) (by norm_num) (by norm_num) (by norm_num)
    90 166 (by decide) (by decide)

end GSwap

namespace GSwap

/-- Claim C1, counterexample: the subsquid `calculateRouteProfit` does not
reproduce the pool's `getAmountOut` with the pool's own `swapFee`.  On a
single-hop route through a pool with `swapFee = 100` bps, reserves 1000/1000
and input 500, the simulator (whose fee is hard-coded at 997/1000) outputs
332, while the pool's `getAmountOut` returns 331. -/
theorem claim_C1_counterexample :
    (squidCalculateRouteProfit [⟨100, 0, 1, 1000, 1000, 100⟩] [0, 1] 500).amountOut = 332 ∧
    gPool.getAmountOut 500 1000 1000 100 = some 331 :=
  ⟨rfl, rfl⟩

/-- Claim C1, amended: the mock server's per-hop output (`getAmountOut` in
mockServer.ts) is bit-for-bit the pool's pricing formula with the pool's own
fee, for every input and reserves positive and a representable fee; the
subsquid simulator's hard-coded 997/1000 hop formula coincides bit-for-bit
with the pool's formula only for pools whose `swapFee` is 30 bps. -/
theorem claim_C1_amended (amountIn reserveIn reserveOut feeBps : ℕ)
    (h1 : 0 < amountIn) (h2 : 0 < reserveIn) (h3 : 0 < reserveOut)
    (h4 : feeBps ≤ 10000) :
    gPool.getAmountOut amountIn reserveIn reserveOut feeBps =
      some (mockGetAmountOut amountIn reserveIn reserveOut feeBps) ∧
    gPool.getAmountOut amountIn reserveIn reserveOut 30 =
      some (squidGetAmountOut amountIn reserveIn reserveOut) := by
  constructor
  · rw [getAmountOut_formula _ _ _ _ h1 h2 h3 h4]
    unfold mockGetAmountOut
    rw [if_neg (by omega)]
  · rw [getAmountOut_formula _ _ _ _ h1 h2 h3 (by norm_num)]
    unfold squidGetAmountOut
    rw [Option.some.injEq]
    have e30 : (10000 - 30 : ℕ) = 9970 := by norm_num
    have h10 : amountIn * (10000 - 30) * reserveOut =
        10 * (amountIn * 997 * reserveOut) := by rw [e30]; ring
    have h10' : reserveIn * 10000 + amountIn * (10000 - 30) =
        10 * (reserveIn * 1000 + amountIn * 997) := by rw [e30]; ring
    rw [h10, h10', Nat.mul_div_mul_left _ _ (by norm_num)]

/-- Claim C1, witness: at input 100, reserves 1000/1000 and fee 30 both
simulators' hop outputs agree with the pool formula. -/
theorem claim_C1_witness :
    gPool.getAmountOut 100 1000 1000 30 = some (mockGetAmountOut 100 1000 1000 30) ∧
    gPool.getAmountOut 100 1000 1000 30 = some (squidGetAmountOut 100 1000 1000) :=
  claim_C1_amended 100 1000 1000 30 (by norm_num) (by norm_num) (by norm_num) (by norm_num)

/-- Claim C4, counterexample: on the 3-node fully connected graph with
`maxHops = 4`, route discovery from token 0 does NOT return exactly the two
triangles: the mock server's DFS also returns the 2-hop back-and-forth cycle
`[0, 1, 0]` (its skip test exempts the start token from the visited check),
and the subsquid variant (which pre-marks the start token as visited) can
never close a cycle and returns no routes at all. -/
theorem claim_C4_counterexample :
    [0, 1, 0] ∈ mockArbitrageRoutes k3Pools 0 4 ∧
    squidArbitrageRoutes k3Pools 0 4 = [] := by decide

/-- Claim C4, amended: on the 3-node fully connected graph with
`maxHops = 4`, the mock server's discovery from token 0 returns exactly the
two triangular cycles and the two 2-hop cycles, in adjacency order; every
returned route starts and ends at the start token (but may have only 2
edges); the subsquid variant returns the empty route set. -/
theorem claim_C4_amended :
    mockArbitrageRoutes k3Pools 0 4 =
      [[0, 1, 0], [0, 1, 2, 0], [0, 2, 0], [0, 2, 1, 0]] ∧
    squidArbitrageRoutes k3Pools 0 4 = [] ∧
    ∀ r ∈ mockArbitrageRoutes k3Pools 0 4,
      3 ≤ r.length ∧ r.head? = some 0 ∧ r.getLast? = some 0 := by decide

end GSwap

namespace GSwap

/-- Once the running amount is `0`, the mock hop loop can only end with a
missing pool or with amount `0`: `getAmountOut` maps a zero input to `0`. -/
theorem mockRouteLoop_zero (pools : List IndexPool) :
    ∀ (rest : List ℕ) (current : ℕ),
      mockRouteLoop pools current 0 rest = none ∨
      mockRouteLoop pools current 0 rest = some 0
  | [], _ => Or.inr rfl
  | next :: rest, current => by
    have h0 : ∀ ri ro fee, mockGetAmountOut 0 ri ro fee = 0 := by
      intro ri ro fee
      unfold mockGetAmountOut
      rw [if_pos (Or.inl rfl)]
    rcases hfp : findPool pools current next with _ | p
    · left
      unfold mockRouteLoop
      rw [hfp]
    · simp only [mockRouteLoop, hfp, h0]
      exact mockRouteLoop_zero pools rest next

/-- Same propagation for the subsquid hop loop. -/
theorem squidRouteLoop_zero (pools : List IndexPool) :
    ∀ (rest : List ℕ) (current : ℕ),
      squidRouteLoop pools current 0 rest = none ∨
      squidRouteLoop pools current 0 rest = some 0
  | [], _ => Or.inr rfl
  | next :: rest, current => by
    have h0 : ∀ ri ro, squidGetAmountOut 0 ri ro = 0 := by
      intro ri ro
      unfold squidGetAmountOut
      simp
    rcases hfp : findPool pools current next with _ | p
    · left
      unfold squidRouteLoop
      rw [hfp]
    · simp only [squidRouteLoop, hfp, h0]
      split_ifs <;>
        first
          | exact Or.inl rfl
          | exact squidRouteLoop_zero pools rest next

/-- If the walk will cross a bad hop `(·, b)` — where `·` is the node from
which the loop reaches `b`, i.e. the last node of `mid` (or the starting node
when `mid = []`) — the mock loop ends with a missing pool or amount `0`. -/
theorem mockRouteLoop_bad (pools : List IndexPool) (b : ℕ) (post : List ℕ) :
    ∀ (mid : List ℕ) (current amount : ℕ),
      hopBad pools (mid.getLastD current) b →
      mockRouteLoop pools current amount (mid ++ b :: post) = none ∨
      mockRouteLoop pools current amount (mid ++ b :: post) = some 0
  | [], current, amount => by
    intro hbad
    simp only [List.getLastD_nil] at hbad
    simp only [List.nil_append]
    rcases hfp : findPool pools current b with _ | p
    · left
      unfold mockRouteLoop
      rw [hfp]
    · simp only [hopBad, hfp] at hbad
      have hz : mockGetAmountOut amount
          (if p.token0 = current then p.reserve0 else p.reserve1)
          (if p.token0 = current then p.reserve1 else p.reserve0) p.swapFee = 0 := by
        unfold mockGetAmountOut
        rw [if_pos]
        by_cases hc : p.token0 = current <;> simp only [hc, if_true, if_false] <;> tauto
      simp only [mockRouteLoop, hfp, hz]
      exact mockRouteLoop_zero pools post b
  | m :: mid, current, amount => by
    intro hbad
    rw [List.getLastD_cons] at hbad
    simp only [List.cons_append]
    rcases hfp : findPool pools current m with _ | p
    · left
      unfold mockRouteLoop
      rw [hfp]
    · simp only [mockRouteLoop, hfp]
      exact mockRouteLoop_bad pools b post mid m _ hbad

/-- The same crossing lemma for the subsquid loop, whose zero-reserve check is
explicit. -/
theorem squidRouteLoop_bad (pools : List IndexPool) (b : ℕ) (post : List ℕ) :
    ∀ (mid : List ℕ) (current amount : ℕ),
      hopBad pools (mid.getLastD current) b →
      squidRouteLoop pools current amount (mid ++ b :: post) = none ∨
      squidRouteLoop pools current amount (mid ++ b :: post) = some 0
  | [], current, amount => by
    intro hbad
    simp only [List.getLastD_nil] at hbad
    simp only [List.nil_append]
    rcases hfp : findPool pools current b with _ | p
    · left
      unfold squidRouteLoop
      rw [hfp]
    · simp only [hopBad, hfp] at hbad
      left
      simp only [squidRouteLoop, hfp]
      rw [if_pos]
      by_cases hc : p.token0 = current <;> simp only [hc, if_true, if_false] <;> tauto
  | m :: mid, current, amount => by
    intro hbad
    rw [List.getLastD_cons] at hbad
    simp only [List.cons_append]
    rcases hfp : findPool pools current m with _ | p
    · left
      unfold squidRouteLoop
      rw [hfp]
    · simp only [squidRouteLoop, hfp]
      split_ifs <;>
        first
          | exact Or.inl rfl
          | exact squidRouteLoop_bad pools b post mid m _ hbad

/-- Bridging lemma: when the mock hop loop ends with a missing pool or a zero
amount, the mock result record has `amountOut = 0` and `viable = false`. -/
theorem mockCalc_zero_of_loop (pools : List IndexPool) (start : ℕ)
    (rest : List ℕ) (amountIn : ℕ)
    (h : mockRouteLoop pools start amountIn rest = none ∨
         mockRouteLoop pools start amountIn rest = some 0) :
    (mockCalculateRouteProfit pools (start :: rest) amountIn).amountOut = 0 ∧
    (mockCalculateRouteProfit pools (start :: rest) amountIn).viable = false := by
  simp only [mockCalculateRouteProfit]
  rcases h with h | h <;> rw [h] <;> simp

/-- Bridging lemma for the subsquid result record. -/
theorem squidCalc_zero_of_loop (pools : List IndexPool) (start : ℕ)
    (rest : List ℕ) (amountIn : ℕ)
    (h : squidRouteLoop pools start amountIn rest = none ∨
         squidRouteLoop pools start amountIn rest = some 0) :
    (squidCalculateRouteProfit pools (start :: rest) amountIn).amountOut = 0 ∧
    (squidCalculateRouteProfit pools (start :: rest) amountIn).viable = false := by
  simp only [squidCalculateRouteProfit]
  have hnn : ¬ ((0 : ℤ) < (0 : ℤ) - (amountIn : ℕ)) := by
    have : (0 : ℤ) ≤ (amountIn : ℕ) := Int.natCast_nonneg amountIn
    omega
  rcases h with h | h <;> rw [h] <;> simp [hnn]

/-- Claim C7: for every route and input amount, if any hop's connecting pool
is missing or has a zero reserve on either side, then both servers'
`calculateRouteProfit` return `amountOut = 0` and `viable = false`.  (The
embedded resolvers are total functions, so no error is raised on this path:
the outcome is an ordinary result record.)  The bad hop is exhibited
structurally: the route decomposes as `pre ++ a :: b :: post` with the hop
`(a, b)` broken. -/
theorem claim_C7_bad_hop_not_viable (pools : List IndexPool)
    (pre post : List ℕ) (a b : ℕ) (amountIn : ℕ) (hbad : hopBad pools a b) :
    ((mockCalculateRouteProfit pools (pre ++ a :: b :: post) amountIn).amountOut = 0 ∧
     (mockCalculateRouteProfit pools (pre ++ a :: b :: post) amountIn).viable = false) ∧
    ((squidCalculateRouteProfit pools (pre ++ a :: b :: post) amountIn).amountOut = 0 ∧
     (squidCalculateRouteProfit pools (pre ++ a :: b :: post) amountIn).viable = false) := by
  cases pre with
  | nil =>
    refine ⟨mockCalc_zero_of_loop pools a (b :: post) amountIn ?_,
      squidCalc_zero_of_loop pools a (b :: post) amountIn ?_⟩
    · exact mockRouteLoop_bad pools b post [] a amountIn (by simpa using hbad)
    · exact squidRouteLoop_bad pools b post [] a amountIn (by simpa using hbad)
  | cons s pre' =>
    have hshape : pre' ++ a :: b :: post = (pre' ++ [a]) ++ b :: post := by
      rw [List.append_assoc, List.singleton_append]
    simp only [List.cons_append]
    rw [hshape]
    refine ⟨mockCalc_zero_of_loop pools s ((pre' ++ [a]) ++ b :: post) amountIn ?_,
      squidCalc_zero_of_loop pools s ((pre' ++ [a]) ++ b :: post) amountIn ?_⟩
    · exact mockRouteLoop_bad pools b post (pre' ++ [a]) s amountIn
        (by simpa [List.getLastD_concat] using hbad)
    · exact squidRouteLoop_bad pools b post (pre' ++ [a]) s amountIn
        (by simpa [List.getLastD_concat] using hbad)

/-- Claim C7, witness: a one-hop route through an empty pool list is not
viable for either server, without an error. -/
theorem claim_C7_witness :
    ((mockCalculateRouteProfit [] [0, 1] 7).amountOut = 0 ∧
     (mockCalculateRouteProfit [] [0, 1] 7).viable = false) ∧
    ((squidCalculateRouteProfit [] [0, 1] 7).amountOut = 0 ∧
     (squidCalculateRouteProfit [] [0, 1] 7).viable = false) :=
  claim_C7_bad_hop_not_viable [] [] [] 0 1 7 (by simp [hopBad, findPool])

end GSwap

namespace GSwap

/-- Claim C5: on every reachable pool state, a deposit that succeeds followed
immediately by a withdrawal of the exact share count minted pays back at most
the deposited amounts; and when the LP supply was zero before the deposit,
the withdrawal succeeds and pays back exactly the deposited amounts.  (Over
reachable states, zero supply forces zero reserves, which is what makes the
first-deposit round trip exact.) -/
theorem claim_C5_roundtrip (s : PoolState) (sender amount0 amount1 : ℕ)
    (s' : PoolState) (lp : ℕ) (hreach : PoolState.Reachable s)
    (hadd : gPool.addLiquidity s sender amount0 amount1 = some (s', lp)) :
    (∀ s'' a0 a1, gPool.removeLiquidity s' sender lp = some (s'', (a0, a1)) →
      a0 ≤ amount0 ∧ a1 ≤ amount1) ∧
    (s.totalSupply = 0 →
      (gPool.removeLiquidity s' sender lp).map Prod.snd = some (amount0, amount1)) := by
  obtain ⟨h0, h1, hlp, hlp0, hs'⟩ := gPool.addLiquidity_eq_some hadd
  have hlppos : 0 < lp := Nat.pos_of_ne_zero hlp0
  have e0 : s'.reserve0 = s.reserve0 + amount0 := by rw [hs']
  have e1 : s'.reserve1 = s.reserve1 + amount1 := by rw [hs']
  have eT : s'.totalSupply = s.totalSupply + lp := by rw [hs']
  have eB : s'.balanceOf sender = s.balanceOf sender + lp := by rw [hs']; simp
  have hpay0_def : gPool.payout0 s' lp =
      lp * (s.reserve0 + amount0) / (s.totalSupply + lp) := by
    unfold gPool.payout0; rw [e0, eT]
  have hpay1_def : gPool.payout1 s' lp =
      lp * (s.reserve1 + amount1) / (s.totalSupply + lp) := by
    unfold gPool.payout1; rw [e1, eT]
  -- exact payback on a first deposit (zero supply, hence zero reserves)
  have keyEq : s.totalSupply = 0 →
      gPool.payout0 s' lp = amount0 ∧ gPool.payout1 s' lp = amount1 := by
    intro hT0
    obtain ⟨hz0, hz1⟩ := PoolState.reachable_zero_supply hreach hT0
    constructor
    · rw [hpay0_def, hT0, hz0, Nat.zero_add, Nat.zero_add]
      exact Nat.mul_div_cancel_left amount0 hlppos
    · rw [hpay1_def, hT0, hz1, Nat.zero_add, Nat.zero_add]
      exact Nat.mul_div_cancel_left amount1 hlppos
  -- never more than the deposit on a subsequent deposit
  have keyLe : 0 < s.totalSupply →
      gPool.payout0 s' lp ≤ amount0 ∧ gPool.payout1 s' lp ≤ amount1 := by
    intro hT
    have hmin : lp = min (amount0 * s.totalSupply / s.reserve0)
        (amount1 * s.totalSupply / s.reserve1) := by
      rw [hlp]; unfold gPool.mintedShares; rw [if_neg (by omega)]
    have hle0 : lp ≤ amount0 * s.totalSupply / s.reserve0 := by
      rw [hmin]; exact min_le_left _ _
    have hle1 : lp ≤ amount1 * s.totalSupply / s.reserve1 := by
      rw [hmin]; exact min_le_right _ _
    have hr0 : 0 < s.reserve0 := by
      rcases Nat.eq_zero_or_pos s.reserve0 with hz | hp
      · rw [hz, Nat.div_zero] at hle0; omega
      · exact hp
    have hr1 : 0 < s.reserve1 := by
      rcases Nat.eq_zero_or_pos s.reserve1 with hz | hp
      · rw [hz, Nat.div_zero] at hle1; omega
      · exact hp
    have hm0 : lp * s.reserve0 ≤ amount0 * s.totalSupply :=
      (Nat.le_div_iff_mul_le hr0).mp hle0
    have hm1 : lp * s.reserve1 ≤ amount1 * s.totalSupply :=
      (Nat.le_div_iff_mul_le hr1).mp hle1
    constructor
    · rw [hpay0_def]
      calc lp * (s.reserve0 + amount0) / (s.totalSupply + lp)
          ≤ amount0 * (s.totalSupply + lp) / (s.totalSupply + lp) :=
            Nat.div_le_div_right (by nlinarith)
      _ = amount0 := Nat.mul_div_cancel amount0 (by omega)
    · rw [hpay1_def]
      calc lp * (s.reserve1 + amount1) / (s.totalSupply + lp)
          ≤ amount1 * (s.totalSupply + lp) / (s.totalSupply + lp) :=
            Nat.div_le_div_right (by nlinarith)
      _ = amount1 := Nat.mul_div_cancel amount1 (by omega)
  constructor
  · intro s'' a0 a1 hrem
    obtain ⟨_, _, _, _, hout, _⟩ := gPool.removeLiquidity_eq_some hrem
    rw [Prod.mk.injEq] at hout
    obtain ⟨ha0, ha1⟩ := hout
    subst ha0 ha1
    rcases Nat.eq_zero_or_pos s.totalSupply with hT0 | hT
    · obtain ⟨k0, k1⟩ := keyEq hT0
      exact ⟨le_of_eq k0, le_of_eq k1⟩
    · exact keyLe hT
  · intro hT0
    obtain ⟨k0, k1⟩ := keyEq hT0
    unfold gPool.removeLiquidity
    rw [if_neg hlp0, if_neg (by rw [eB]; omega),
      if_neg (by rw [k0, k1]; push_neg; exact ⟨h0, h1⟩)]
    · simp [k0, k1]

/-- Depositing `(4, 9)` into a fresh 30 bps pool mints `⌊√36⌋ = 6` shares and
leaves the state `poolAfterFirstDeposit`. -/
theorem addLiquidity_first_deposit :
    gPool.addLiquidity (PoolState.fresh 30) 7 4 9 = some (poolAfterFirstDeposit, 6) := by
  have h6 : gPool.mintedShares (PoolState.fresh 30) 4 9 = 6 := by
    unfold gPool.mintedShares PoolState.fresh
    rw [if_pos rfl, gPool_sqrt_eq]
    exact (Nat.eq_sqrt.mpr (by norm_num)).symm
  unfold gPool.addLiquidity
  rw [h6, if_neg (by norm_num), if_neg (by norm_num)]
  exact rfl

/-- Claim C5, witness: depositing `(4, 9)` into a fresh pool mints 6 shares
(`⌊√36⌋`), and removing those 6 shares immediately returns exactly `(4, 9)`. -/
theorem claim_C5_witness :
    (gPool.removeLiquidity poolAfterFirstDeposit 7 6).map Prod.snd = some (4, 9) :=
  (claim_C5_roundtrip (PoolState.fresh 30) 7 4 9 poolAfterFirstDeposit 6
    (PoolState.Reachable.fresh 30) addLiquidity_first_deposit).2 rfl

end GSwap

namespace GSwap

/-- Claim C6: for amounts positive, `addLiquidity` mints exactly
`⌊√(amount0·amount1)⌋` shares on an empty pool (`Nat.sqrt` is the floor of
the real square root; the Babylonian `_sqrt` loop is proved equal to it in
`gPool_sqrt_eq`), otherwise
`min(⌊amount0·total/reserve0⌋, ⌊amount1·total/reserve1⌋)` shares, and the
call fails exactly when that share count is zero. -/
theorem claim_C6_addLiquidity_shares (s : PoolState) (sender amount0 amount1 : ℕ)
    (h0 : 0 < amount0) (h1 : 0 < amount1) :
    (gPool.addLiquidity s sender amount0 amount1).map Prod.snd =
      (if (if s.totalSupply = 0 then Nat.sqrt (amount0 * amount1)
           else min (amount0 * s.totalSupply / s.reserve0)
                    (amount1 * s.totalSupply / s.reserve1)) = 0
       then none
       else some (if s.totalSupply = 0 then Nat.sqrt (amount0 * amount1)
           else min (amount0 * s.totalSupply / s.reserve0)
                    (amount1 * s.totalSupply / s.reserve1))) := by
  have hms : gPool.mintedShares s amount0 amount1 =
      (if s.totalSupply = 0 then Nat.sqrt (amount0 * amount1)
       else min (amount0 * s.totalSupply / s.reserve0)
                (amount1 * s.totalSupply / s.reserve1)) := by
    unfold gPool.mintedShares
    rw [gPool_sqrt_eq]
  unfold gPool.addLiquidity
  rw [if_neg (by omega), hms]
  split_ifs <;> simp

/-- Claim C6, witness: the spec's first-deposit example — amounts 1000 and
4000 into an empty pool mint exactly `⌊√4000000⌋ = 2000` shares. -/
theorem claim_C6_witness :
    (gPool.addLiquidity (PoolState.fresh 30) 7 1000 4000).map Prod.snd = some 2000 := by
  have h := claim_C6_addLiquidity_shares (PoolState.fresh 30) 7 1000 4000
    (by norm_num) (by norm_num)
  have hsq : Nat.sqrt (1000 * 4000) = 2000 := (Nat.eq_sqrt.mpr (by norm_num)).symm
  rw [h]
  simp [PoolState.fresh, hsq]

/-- Claim C8: `executeArbitrage` returns a failed result without attempting
settlement whenever the decision says not to execute or its confidence is
below the 0.6 threshold (the result does not depend on the abstracted
settlement stage at all); a confidence of 0.59 is refused even with
`shouldExecute = true`, while a confidence of 0.60 passes the gates and
reaches settlement. -/
theorem claim_C8_confidence_gate (decision : ExecutionDecision)
    (proceed : TransactionResult) :
    ((decision.shouldExecute = false ∨ decision.confidence < 6 / 10) →
      (executeArbitrage decision proceed).success = false ∧
      ∀ proceed', executeArbitrage decision proceed =
        executeArbitrage decision proceed') ∧
    (decision.shouldExecute = true → decision.confidence = 59 / 100 →
      (executeArbitrage decision proceed).success = false) ∧
    (decision.shouldExecute = true → decision.confidence = 6 / 10 →
      executeArbitrage decision proceed = proceed) := by
  refine ⟨?_, ?_, ?_⟩
  · intro hgate
    unfold executeArbitrage
    rcases hgate with hfalse | hconf
    · rw [hfalse]
      exact ⟨rfl, fun _ => rfl⟩
    · by_cases hex : decision.shouldExecute
      · rw [hex]
        simp only [Bool.not_true, Bool.false_eq_true, if_false]
        refine ⟨?_, ?_⟩
        · rw [if_pos hconf]
        · intro proceed'
          rw [if_pos hconf, if_pos hconf]
      · rw [Bool.not_eq_true] at hex
        rw [hex]
        exact ⟨rfl, fun _ => rfl⟩
  · intro hex hconf
    unfold executeArbitrage
    rw [hex, hconf]
    norm_num
  · intro hex hconf
    unfold executeArbitrage
    rw [hex, hconf]
    norm_num

/-- Claim C8, witness: a decision with `shouldExecute = true` and confidence
0.59 yields a failed result. -/
theorem claim_C8_witness :
    (executeArbitrage ⟨true, 59 / 100, "ok"⟩ ⟨true, none⟩).success = false :=
  (claim_C8_confidence_gate ⟨true, 59 / 100, "ok"⟩ ⟨true, none⟩).2.1 rfl rfl

/-- The retry loop issues at most `retries + 1 - attempt` further requests
from attempt number `attempt` on. -/
theorem callLLMGo_count_le (oracle : ℕ → AttemptOutcome) (retries : ℕ) :
    ∀ (k attempt : ℕ), retries + 1 - attempt ≤ k →
      (callLLMGo oracle retries attempt).2 ≤ retries + 1 - attempt
  | 0, attempt, hk => by
    rw [callLLMGo, if_pos (by omega)]
    simp
  | k + 1, attempt, hk => by
    rw [callLLMGo]
    by_cases hlt : retries < attempt
    · rw [if_pos hlt]
      simp
    · rw [if_neg hlt]
      rcases ho : oracle attempt with s | _ | _ <;> simp only [ho]
      · omega
      · have := callLLMGo_count_le oracle retries k (attempt + 1) (by omega)
        omega
      · by_cases hlast : attempt = retries
        · rw [if_pos hlast]
          dsimp only
          omega
        · rw [if_neg hlast]
          have := callLLMGo_count_le oracle retries k (attempt + 1) (by omega)
          dsimp only
          omega

/-- Claim C9: the oracle client makes at most 3 request attempts, and when
attempts 1, 2 and 3 all fail (for example three consecutive timeouts) it
resolves to the safe default decision — `shouldExecute = false`, zero
confidence, the failure reason recorded — after exactly 3 attempts, never a
4th. -/
theorem claim_C9_retries_default (oracle : ℕ → AttemptOutcome)
    (parse : String → ExecutionDecision)
    (hfail : oracle 1 = .failure ∧ oracle 2 = .failure ∧ oracle 3 = .failure) :
    analyzeOpportunity true oracle parse = (defaultDecision, 3) ∧
    (∀ (oracle' : ℕ → AttemptOutcome) (parse' : String → ExecutionDecision),
      (analyzeOpportunity true oracle' parse').2 ≤ 3) := by
  obtain ⟨hf1, hf2, hf3⟩ := hfail
  constructor
  · have h3 : callLLMGo oracle 3 3 = (.error "request failed", 1) := by
      rw [callLLMGo, if_neg (by omega)]
      simp [hf3]
    have h2 : callLLMGo oracle 3 2 = (.error "request failed", 2) := by
      rw [callLLMGo, if_neg (by omega)]
      simp [hf2, h3]
    have h1 : callLLMGo oracle 3 1 = (.error "request failed", 3) := by
      rw [callLLMGo, if_neg (by omega)]
      simp [hf1, h2]
    unfold analyzeOpportunity callLLM
    simp [h1]
  · intro oracle' parse'
    unfold analyzeOpportunity callLLM
    have hcount := callLLMGo_count_le oracle' 3 3 1 (by omega)
    rcases hres : callLLMGo oracle' 3 1 with ⟨r, n⟩
    rw [hres] at hcount
    simp only [hres, Bool.not_true, Bool.false_eq_true, if_false]
    cases r <;> simpa using hcount

/-- Claim C9, witness: an oracle that times out on every attempt yields the
default conservative decision after exactly 3 requests. -/
theorem claim_C9_witness :
    analyzeOpportunity true (fun _ => AttemptOutcome.failure)
      (fun _ => defaultDecision) = (defaultDecision, 3) :=
  (claim_C9_retries_default (fun _ => AttemptOutcome.failure)
    (fun _ => defaultDecision) ⟨rfl, rfl, rfl⟩).1

end GSwap

namespace GSwap

/-- Concrete score computation: a viable 3-hop cyclic route (4 tokens) worth
82 USD net at 5% profit is scored 0.61 by the calculator. -/
theorem evaluateRoute_score_example :
    evaluateRoute defaultCalculatorConfig [⟨0, "WETH", 18⟩] [0, 1, 2, 0]
        1000000000000000000 ⟨true, 50000000000000000, 450000⟩ =
      some ⟨5, 100, 18, 82, true, 61 / 100⟩ := by
  norm_num [evaluateRoute, getTokenByAddress, estimateTokenPriceUSD,
    defaultCalculatorConfig, calculateScore, List.find?]

/-- Claim C10, counterexample: the calculator's score does not use the
route's hop count.  For the 3-hop cyclic route `[0,1,2,0]` (net profit 82
USD, profit 5%), the produced score is 0.61 — `0.5·0.82 + 0.3·0.5 + 0.2·(1/4)`
with the token count 4 — whereas the claimed formula with hopCount = 3 gives
`0.5·0.82 + 0.3·0.5 + 0.2·(1/3) ≈ 0.6267 ≠ 0.61`. -/
theorem claim_C10_counterexample :
    (evaluateRoute defaultCalculatorConfig [⟨0, "WETH", 18⟩] [0, 1, 2, 0]
        1000000000000000000 ⟨true, 50000000000000000, 450000⟩).map Opportunity.score =
      some (61 / 100) ∧
    (61 / 100 : ℚ) ≠
      5 / 10 * min ((82 : ℚ) / 100) 1 + 3 / 10 * min ((5 : ℚ) / 10) 1 +
        2 / 10 * (1 / (3 : ℚ)) := by
  constructor
  · rw [evaluateRoute_score_example]
    rfl
  · rw [min_eq_left (by norm_num : (82 : ℚ) / 100 ≤ 1),
      min_eq_left (by norm_num : (5 : ℚ) / 10 ≤ 1)]
    norm_num

/-- Claim C10, amended: every opportunity the calculator produces is scored
`0.5·min(netProfit/100, 1) + 0.3·min(profitPercent/10, 1) + 0.2·(1/L)` where
`L` is the token count of the route (`route.length`), which for a cyclic
route of `h` hops is `h + 1`, not the hop count itself. -/
theorem claim_C10_amended (cfg : CalculatorConfig) (tokens : List AgentToken)
    (route : List ℕ) (amountIn : ℚ) (result : ClientRouteResult)
    (opp : Opportunity)
    (h : evaluateRoute cfg tokens route amountIn result = some opp) :
    opp.score = 5 / 10 * min (opp.netProfitUSD / 100) 1 +
      3 / 10 * min (opp.profitPercent / 10) 1 +
      2 / 10 * (1 / (route.length : ℚ)) := by
  unfold evaluateRoute at h
  split_ifs at h
  all_goals dsimp only at h
  all_goals split_ifs at h
  all_goals
    simp only [Option.some.injEq] at h
    subst h
    unfold calculateScore
    dsimp only
    ring

/-- Claim C10, witness: the amended formula applied to the concrete 3-hop
opportunity above — the last term is `0.2 · (1/4)`. -/
theorem claim_C10_witness :
    (evaluateRoute defaultCalculatorConfig [⟨0, "WETH", 18⟩] [0, 1, 2, 0]
        1000000000000000000 ⟨true, 50000000000000000, 450000⟩).map Opportunity.score =
      some (5 / 10 * min ((82 : ℚ) / 100) 1 + 3 / 10 * min ((5 : ℚ) / 10) 1 +
        2 / 10 * (1 / (4 : ℚ))) := by
  have h := claim_C10_amended defaultCalculatorConfig [⟨0, "WETH", 18⟩]
    [0, 1, 2, 0] 1000000000000000000 ⟨true, 50000000000000000, 450000⟩
    ⟨5, 100, 18, 82, true, 61 / 100⟩ evaluateRoute_score_example
  rw [evaluateRoute_score_example]
  simpa using h

end GSwap
